import Mathlib

/-
Verification of the scrape/dedup core of `xhsBrowser.py`.

The embedding below transcribes, into Lean, the parts of the source that the
spec's testable properties talk about:

  * `_parse_like_count`  (like-count normalizer)        -> `parse_like_count`
  * `_extract_note_info` (per-fragment field extractor) -> `extract_note_info`
  * `parse_html`         (capture pass: dedup + batch)  -> `parse_html`
  * `AutoScrollController` (scroll pacer)               -> `Pacer`, `handle_scroll`

Python strings are modelled as lists of code points (`Str := List Char`).
Two library functions used by the source are modelled as follows:

  * `hashlib.md5(x).hexdigest()[:8]` is an arbitrary function of the hashed
    string; every theorem below is proved for an arbitrary `hash : Str → Str`
    parameter, hence in particular for the MD5-based hash.
  * `urllib.parse.urljoin` is transcribed for the fixed base
    "https://www.xiaohongshu.com" (scheme detection as in `urlsplit`,
    protocol-relative, absolute-path, query/fragment-only and relative
    references).  The base has an empty path, which makes path merging
    degenerate to plain concatenation.

Python `float(text)` is modelled bit-faithfully as IEEE-754 binary64
(`pyFloat?`): the full `float` grammar (optional sign, digits with
underscore separators, decimal point, exponent part, `inf`/`infinity`/`nan`
case-insensitively, surrounding whitespace) and correct round-to-nearest,
ties-to-even conversion to a 53-bit significand, with gradual underflow and
overflow to infinity, all computed with exact integer arithmetic
(`roundPosToF`).  The multiplications by 10000 / 1000 re-round the exact
product (`fmulNat`), exactly as the hardware multiply does, and `int()`
truncates toward zero, raising `OverflowError` on an infinity and
`ValueError` on a nan (`ftrunc`).  Only non-ASCII decimal digits and exotic
Unicode whitespace (which CPython also accepts) are outside the modelled
grammar.  The model was cross-checked against CPython on a battery of
inputs covering double rounding, ties at 2^53, subnormals, underscore
placement, exponents and overflow.

The DOM access performed by BeautifulSoup CSS selectors is modelled by a
`Fragment` record whose fields hold exactly the results of the selector
queries `_extract_note_info` and `parse_html` perform on one
`section.note-item` element.
-/

/-- A Python string: a sequence of code points. -/
abbrev Str := List Char

/-- View a Lean string literal as a Python string. -/
def pyStr (s : String) : Str := s.data

/-- Python `s.strip()`: drop leading and trailing whitespace. -/
def pyStrip (s : Str) : Str :=
  ((s.dropWhile Char.isWhitespace).reverse.dropWhile Char.isWhitespace).reverse

/-- Python `s.split(sep)[0]`: the text before the first occurrence of `sep`
(the whole string when `sep` does not occur). -/
def split_head (sep : Char) (s : Str) : Str :=
  s.takeWhile (fun c => c != sep)

/-- Python `s.split(sep)[-1]`: the text after the last occurrence of `sep`
(the whole string when `sep` does not occur). -/
def split_last (sep : Char) (s : Str) : Str :=
  (s.reverse.takeWhile (fun c => c != sep)).reverse

/-- Numeric value of a digit string (most significant digit first). -/
def digitsVal (s : Str) : Nat :=
  s.foldl (fun a c => a * 10 + (c.toNat - '0'.toNat)) 0

/-- Python exceptions arising in the modelled fragment processing:
`AttributeError` (method call on `None`), `KeyError` (missing tag
attribute), `ValueError` (bad `float()` literal, `int(nan)`), and
`OverflowError` (`int()` of an infinite float). -/
inductive PyError
  | attributeError
  | keyError
  | valueError
  | overflowError
deriving DecidableEq

/-- Equality of modelled results (values or exceptions) is decidable. -/
instance {e a : Type} [DecidableEq e] [DecidableEq a] :
    DecidableEq (Except e a) := fun x y =>
  match x, y with
  | Except.ok v, Except.ok w =>
      match decEq v w with
      | isTrue h => isTrue (by rw [h])
      | isFalse h => isFalse (fun hh => h (Except.ok.inj hh))
  | Except.error v, Except.error w =>
      match decEq v w with
      | isTrue h => isTrue (by rw [h])
      | isFalse h => isFalse (fun hh => h (Except.error.inj hh))
  | Except.ok _, Except.error _ => isFalse (fun hh => Except.noConfusion hh)
  | Except.error _, Except.ok _ => isFalse (fun hh => Except.noConfusion hh)

/-- Floor of the base-2 logarithm, by fuel-bounded halving (the fuel `n`
bounds the number of halvings, so the result is exact for every input). -/
def log2Fuel : Nat → Nat → Nat
  | 0, _ => 0
  | fuel + 1, n => if 2 ≤ n then log2Fuel fuel (n / 2) + 1 else 0

/-- Floor of the base-2 logarithm of a natural number (0 for 0 and 1). -/
def natLog2 (n : Nat) : Nat := log2Fuel n n

/-- Decide `2 ^ e ≤ a / b` by cross-multiplication. -/
def le2pow (e : Int) (a b : Nat) : Bool :=
  if 0 ≤ e then b * 2 ^ e.toNat ≤ a else b ≤ a * 2 ^ (-e).toNat

/-- Floor of the base-2 logarithm of the positive rational `a / b`. -/
def ratLog2 (a b : Nat) : Int :=
  let d : Int := (natLog2 a : Int) - (natLog2 b : Int)
  if le2pow (d + 1) a b then d + 1
  else if le2pow d a b then d
  else d - 1

/-- Round the non-negative rational `num / den` to the nearest integer,
ties to even. -/
def roundHalfEven (num den : Nat) : Nat :=
  let q := num / den
  let r := num % den
  if 2 * r < den then q
  else if 2 * r > den then q + 1
  else if q % 2 = 0 then q else q + 1

/-- The rational `(a / b) * 2 ^ (-e)` as a fraction of naturals. -/
def ratScale (a b : Nat) (e : Int) : Nat × Nat :=
  if 0 ≤ e then (a, b * 2 ^ e.toNat) else (a * 2 ^ (-e).toNat, b)

/-- An IEEE-754 binary64 value as Python holds it: a finite value
`(-1 if neg else 1) * mant * 2 ^ exp` (with `mant < 2 ^ 53` for the values
the rounding below produces), a signed infinity, or a nan. -/
inductive PyFloat
  | finite (neg : Bool) (mant : Nat) (exp : Int)
  | inf (neg : Bool)
  | nan
deriving DecidableEq

/-- The rational value of a finite float (`none` for infinities and nan);
used on the specification side of the theorems below. -/
def PyFloat.val : PyFloat → Option ℚ
  | PyFloat.finite neg m e => some ((if neg then -1 else 1) * (m : ℚ) * (2 : ℚ) ^ e)
  | _ => none

/-- Round the positive rational `a / b` to binary64: scale into
`[2 ^ 52, 2 ^ 53)` (or the subnormal range at the minimum exponent
`-1074`), round to nearest with ties to even, and overflow to infinity at
`2 ^ 1024`. -/
def roundPosToF (a b : Nat) : PyFloat :=
  let L := ratLog2 a b
  let e : Int := max (L - 52) (-1074)
  let p := ratScale a b e
  let n := roundHalfEven p.1 p.2
  if n = 0 then PyFloat.finite false 0 0
  else if 0 ≤ e && 2 ^ 1024 ≤ n * 2 ^ e.toNat then PyFloat.inf false
  else PyFloat.finite false n e

/-- Round the signed rational `±(a / b)` to binary64. -/
def mkFloat (neg : Bool) (a b : Nat) : PyFloat :=
  if a = 0 then PyFloat.finite neg 0 0
  else
    match roundPosToF a b with
    | PyFloat.finite _ m e => PyFloat.finite neg m e
    | PyFloat.inf _ => PyFloat.inf neg
    | PyFloat.nan => PyFloat.nan

/-- The binary64 value of the decimal `±(m10 * 10 ^ e10)` — what `float`
returns for a parsed decimal literal. -/
def decToF (neg : Bool) (m10 : Nat) (e10 : Int) : PyFloat :=
  if 0 ≤ e10 then mkFloat neg (m10 * 10 ^ e10.toNat) 1
  else mkFloat neg m10 (10 ^ (-e10).toNat)

/-- CPython's underscore rule for numeric literals passed to `float`:
every `'_'` must be surrounded by digits.  The flag records whether the
previous character was a digit. -/
def usAux : Bool → Str → Bool
  | _, [] => true
  | b, c :: rest =>
      if c = '_' then
        b && (match rest with | d :: _ => d.isDigit | [] => false) && usAux false rest
      else usAux c.isDigit rest

/-- An optional leading sign (`true` = negative). -/
def parseSign : Str → (Bool × Str)
  | '+' :: r => (false, r)
  | '-' :: r => (true, r)
  | s => (false, s)

/-- The exponent part after `e`: optional sign then digits. -/
def parseExp? (s : Str) : Option Int :=
  let p := parseSign s
  if p.2 ≠ [] && p.2.all (fun c => c.isDigit) then
    some ((if p.1 then -1 else 1) * (digitsVal p.2 : Int))
  else none

/-- A sign-free decimal literal `digits [. digits] [e exp]` (at least one
digit before or after the point), as mantissa and base-10 exponent. -/
def parseDecimal? (s : Str) : Option (Nat × Int) :=
  let ip := s.takeWhile (fun c => c.isDigit)
  match s.dropWhile (fun c => c.isDigit) with
  | [] => if ip = [] then none else some (digitsVal ip, 0)
  | '.' :: r2 =>
      let fp := r2.takeWhile (fun c => c.isDigit)
      let m := digitsVal ip * 10 ^ fp.length + digitsVal fp
      if ip = [] && fp = [] then none
      else
        match r2.dropWhile (fun c => c.isDigit) with
        | [] => some (m, -(fp.length : Int))
        | 'e' :: r4 => (parseExp? r4).map (fun ex => (m, ex - (fp.length : Int)))
        | _ => none
  | 'e' :: r4 =>
      if ip = [] then none
      else (parseExp? r4).map (fun ex => (digitsVal ip, ex))
  | _ => none

/-- Python `float(s)`: strip whitespace, validate underscores, lowercase,
accept `inf`/`infinity`/`nan` with optional sign, else parse a decimal
literal and round it to binary64.  `none` models a raised `ValueError`. -/
def pyFloat? (sIn : Str) : Option PyFloat :=
  let s0 := pyStrip sIn
  if usAux false s0 then
    let t := (s0.filter (fun c => c != '_')).map Char.toLower
    let p := parseSign t
    if p.2 = pyStr "inf" || p.2 = pyStr "infinity" then some (PyFloat.inf p.1)
    else if p.2 = pyStr "nan" then some PyFloat.nan
    else (parseDecimal? p.2).map (fun d => decToF p.1 d.1 d.2)
  else none

/-- IEEE multiplication of a float by the exact positive integer `k`
(10000 or 1000 here, both exactly representable): round the exact product.
Infinities and nan propagate. -/
def fmulNat (f : PyFloat) (k : Nat) : PyFloat :=
  match f with
  | PyFloat.finite neg m e =>
      if m = 0 then PyFloat.finite neg 0 0
      else if 0 ≤ e then mkFloat neg (m * k * 2 ^ e.toNat) 1
      else mkFloat neg (m * k) (2 ^ (-e).toNat)
  | PyFloat.inf neg => PyFloat.inf neg
  | PyFloat.nan => PyFloat.nan

/-- Python `int()` on a float: truncation toward zero for finite values,
`OverflowError` for infinities, `ValueError` for nan. -/
def ftrunc : PyFloat → Except PyError Int
  | PyFloat.finite neg m e =>
      Except.ok ((if neg then -1 else 1) *
        ((if 0 ≤ e then m * 2 ^ e.toNat else m / 2 ^ (-e).toNat : Nat) : Int))
  | PyFloat.inf _ => Except.error PyError.overflowError
  | PyFloat.nan => Except.error PyError.valueError

/-- Truncation toward zero of a rational, the integer Python `int()`
returns on a finite float of that value; used to state properties of the
normalizer. -/
def ratTrunc (q : ℚ) : Int :=
  if 0 ≤ q then ⌊q⌋ else ⌈q⌉

/-- Line 442 of the source: `text.replace('+', '').strip()`. -/
def normText (t : Str) : Str := pyStrip (t.filter (fun c => c != '+'))

/-- The float value computed inside the `try` block of `_parse_like_count`
(source lines 444-450): suffix dispatch on `万` / `千`, then `float` of the
remaining numeral, times the multiplier (an IEEE multiplication).  `none`
models the `ValueError` raised by `float` and caught at line 452. -/
def likeValue? (t : Str) : Option PyFloat :=
  let s := normText t
  if '万' ∈ s then (pyFloat? (s.filter (fun c => c != '万'))).map (fun f => fmulNat f 10000)
  else if '千' ∈ s then (pyFloat? (s.filter (fun c => c != '千'))).map (fun f => fmulNat f 1000)
  else pyFloat? s

/-- `BrowserTab._parse_like_count` (source lines 436-453): the suffix-aware
like-count normalizer.  `return int(like_count)` truncates toward zero; the
`except ValueError` catches both a failed `float()` parse and `int(nan)`
and returns 0, while the `OverflowError` from `int()` of an infinite value
is NOT caught and propagates to the caller. -/
def parse_like_count (t : Str) : Except PyError Int :=
  match likeValue? t with
  | none => Except.ok 0
  | some f =>
      match ftrunc f with
      | Except.ok n => Except.ok n
      | Except.error PyError.valueError => Except.ok 0
      | Except.error e => Except.error e

/-- Characters `urllib.parse.urlsplit` accepts inside a URL scheme. -/
def isSchemeChar (c : Char) : Bool :=
  c.isAlphanum || c = '+' || c = '-' || c = '.'

/-- Scheme detection of `urlsplit`: scan for a `':'`; the reference has a
scheme iff a nonempty run of scheme characters is terminated by `':'` before
any other character.  The accumulator records whether the run is nonempty. -/
def hasSchemeAux : Bool → Str → Bool
  | _, [] => false
  | ne, c :: rest =>
      if c = ':' then ne
      else if isSchemeChar c then hasSchemeAux true rest
      else false

/-- Whether a URL reference carries its own scheme. -/
def hasScheme (u : Str) : Bool := hasSchemeAux false u

/-- Model of `urllib.parse.urljoin(base, url)` for the base
"https://www.xiaohongshu.com" (an `https` URL with empty path): a reference
with its own scheme is returned unchanged, a protocol-relative reference
gets the base's scheme, an absolute-path / query-only / fragment-only
reference is appended to the scheme+authority (which is the whole base), and
a relative path is resolved against the base's empty path, i.e. under
`"/"`. -/
def urljoin (base url : Str) : Str :=
  if url = [] then base
  else if hasScheme url then url
  else if url.take 2 = pyStr "//" then pyStr "https:" ++ url
  else if url.take 1 = pyStr "/" then base ++ url
  else if url.take 1 = pyStr "?" then base ++ url
  else if url.take 1 = pyStr "#" then base ++ url
  else base ++ pyStr "/" ++ url

/-- The fixed base URL of source line 361. -/
def base_url : Str := pyStr "https://www.xiaohongshu.com"

/-- Source line 375: `full_url.split('?')[0].split('/')[-1]` — the final
path segment of the query-stripped URL. -/
def note_core_id (full_url : Str) : Str :=
  split_last '/' (split_head '?' full_url)

/-- Source line 376: the short note id is the (md5-based) hash of the core
id; the hash is an arbitrary parameter here. -/
def note_id_of (hash : Str → Str) (full_url : Str) : Str :=
  hash (note_core_id full_url)

/-- Result of the selector query `.author-wrapper .author[href]` on one
fragment: the anchor's `href` attribute and, when present, the stripped text
of its `.name` descendant (`select_one('.name')` at source line 413 may
return `None`). -/
structure AuthorTag where
  href : Str
  nameText : Option Str
deriving DecidableEq

/-- One `section.note-item` element, represented by the results of the
selector queries `parse_html` / `_extract_note_info` perform on it:

  * `style`        — `item.get('style', '')`;
  * `noteLinkHref` — `href` of `a.cover.mask[href*="xsec_token="]`, if any;
  * `author`       — the `.author-wrapper .author[href]` anchor, if any;
  * `likeCount`    — outer `some` iff `.like-wrapper` is present, inner
                     value the stripped text of `.like-wrapper .count`
                     (`none` when the wrapper has no `.count` descendant);
  * `coverImg`     — outer `some` iff `.cover.mask img` is present, inner
                     value its `src` attribute (`none` when the tag carries
                     no `src`);
  * `titleText`    — stripped text of `.title`, if present;
  * `imgSrcs`      — the `src` attributes of all `img[src]` descendants. -/
structure Fragment where
  style : Str
  noteLinkHref : Option Str
  author : Option AuthorTag
  likeCount : Option (Option Str)
  coverImg : Option (Option Str)
  titleText : Option Str
  imgSrcs : List Str
deriving DecidableEq

/-- The note record built at source lines 424-434 (a plain dict in the
source; the `NoteItem` pydantic model is declared but never instantiated). -/
structure NoteData where
  id : Str
  title : Str
  url : Str
  author : Str
  author_link : Str
  likes : Int
  cover : Str
  images : List Str
  timestamp : Int
deriving DecidableEq

/-- Source line 413: `author_tag.select_one('.name').get_text(strip=True)
if author_tag else ""`.  When the author anchor exists but has no `.name`
descendant, `select_one` returns `None` and `.get_text` raises
`AttributeError`. -/
def author_name_of (item : Fragment) : Except PyError Str :=
  match item.author with
  | some a =>
      match a.nameText with
      | some n => Except.ok n
      | none => Except.error PyError.attributeError
  | none => Except.ok []

/-- Source lines 416-417: the like text is the stripped text of
`.like-wrapper .count` when `.like-wrapper` exists, else `"0"`.  When the
wrapper exists without a `.count` descendant, `.get_text` is called on
`None` and raises `AttributeError`. -/
def like_text_of (item : Fragment) : Except PyError Str :=
  match item.likeCount with
  | some (some t) => Except.ok t
  | some none => Except.error PyError.attributeError
  | none => Except.ok (pyStr "0")

/-- Source lines 421-422: `cover_img['src'] if cover_img else ""`.  When the
cover `img` exists but carries no `src` attribute, the subscript raises
`KeyError`. -/
def cover_url_of (item : Fragment) : Except PyError Str :=
  match item.coverImg with
  | some (some src) => Except.ok src
  | some none => Except.error PyError.keyError
  | none => Except.ok []

/-- `BrowserTab._extract_note_info` (source lines 401-434).  `now` is the
capture-time `int(time.time())`.  An exception raised by any sub-extraction
propagates (to the per-fragment handler of `parse_html`). -/
def extract_note_info (item : Fragment) (base note_id full_url : Str)
    (now : Int) : Except PyError NoteData :=
  let author_url := match item.author with
    | some a => urljoin base a.href
    | none => []
  match author_name_of item with
  | Except.error e => Except.error e
  | Except.ok author_name =>
    match like_text_of item with
    | Except.error e => Except.error e
    | Except.ok like_text =>
      match parse_like_count like_text with
      | Except.error e => Except.error e
      | Except.ok likes =>
        match cover_url_of item with
        | Except.error e => Except.error e
        | Except.ok cover_url =>
          Except.ok
            { id := note_id
              title := (item.titleText).getD []
              url := full_url
              author := author_name
              author_link := author_url
              likes := likes
              cover := cover_url
              images := item.imgSrcs
              timestamp := now }

/-- Source line 366: the hidden-item filter
`'display: none' in item.get('style', '') or 'visibility: hidden' in ...`
(Python substring containment). -/
def hiddenItem (item : Fragment) : Bool :=
  decide (pyStr "display: none" <:+: item.style) ||
  decide (pyStr "visibility: hidden" <:+: item.style)

/-- The body of the `for item in soup.select('section.note-item')` loop of
`parse_html` (source lines 363-390), acting on the accumulator
`(collected_notes, notes)`: skip hidden items, skip items without the
canonical link, derive the id, skip already-collected ids, extract, and on
success register the id and append the record.  Any exception raised while
processing the single fragment is caught at lines 388-390 (logged) and the
loop continues, leaving the accumulator unchanged. -/
def process_item (hash : Str → Str) (now : Int)
    (acc : Finset Str × List NoteData) (item : Fragment) :
    Finset Str × List NoteData :=
  if hiddenItem item then acc
  else
    match item.noteLinkHref with
    | none => acc
    | some href =>
      let full_url := urljoin base_url href
      let nid := note_id_of hash full_url
      if nid ∈ acc.1 then acc
      else
        match extract_note_info item base_url nid full_url now with
        | Except.error _ => acc
        | Except.ok nd => (insert nid acc.1, acc.2 ++ [nd])

/-- A whole-page markup snapshot, as seen by `BeautifulSoup(html,
'html.parser')` followed by `soup.select('section.note-item')`: either the
list of note-item fragments, or an input on which the parse raises
(`BeautifulSoup` raises e.g. `TypeError` when the snapshot is not a
string). -/
inductive Html
  | bad
  | ok (frags : List Fragment)

/-- `BrowserTab.parse_html` (source lines 357-399).  Returns the new
`collected_notes` set, the batch of newly extracted records, and the list of
`dataCaptured` events emitted (each event carries one whole batch; lines
392-393 emit only when the batch is nonempty).

When the whole-page parse raises, control reaches the `except` branch at
lines 398-399, which calls `self.handle_html_error` — but `BrowserTab`
defines no attribute `handle_html_error` (its methods are `_init_ui`,
`_init_web_engine`, `_init_signals`, `toggle_monitoring`,
`_start_monitoring`, `_stop_monitoring`, `load_url`, `on_page_loaded`,
`handle_content_loaded`, `start_data_collection`, `check_page_status`,
`capture_data`, `parse_html`, `_extract_note_info`, `_parse_like_count`,
`_generate_note_id`, `_extract_text`, `_extract_attr`, `_parse_number`,
`handle_new_content`).  The attribute lookup therefore raises
`AttributeError`, which propagates out of `parse_html` instead of being
logged. -/
def parse_html (hash : Str → Str) (collected : Finset Str) (html : Html)
    (now : Int) :
    Except PyError (Finset Str × List NoteData × List (List NoteData)) :=
  match html with
  | Html.bad => Except.error PyError.attributeError
  | Html.ok frags =>
    let res := frags.foldl (process_item hash now) (collected, [])
    Except.ok (res.1, res.2, if res.2.isEmpty then [] else [res.2])

/-- The id-derivation pipeline of `parse_html` on one fragment (source lines
366-376): `none` when the fragment is hidden or has no canonical link, else
the derived short id. -/
def deriveId? (hash : Str → Str) (item : Fragment) : Option Str :=
  if hiddenItem item then none
  else
    match item.noteLinkHref with
    | none => none
    | some href => some (note_id_of hash (urljoin base_url href))

/-- Whether `_extract_note_info` raises on this fragment: exactly when the
author anchor exists without a `.name` descendant, the like wrapper exists
without a `.count` descendant, the like text's `int(float(...))` conversion
raises (`OverflowError` on a value that overflows to infinity, uncaught by
the `except ValueError`), or the cover image exists without a `src`
attribute. -/
def extractRaises (item : Fragment) : Bool :=
  (match item.author with
   | some a => a.nameText.isNone
   | none => false) ||
  (match item.likeCount with | some none => true | _ => false) ||
  (match like_text_of item with
   | Except.ok t =>
       match parse_like_count t with
       | Except.error _ => true
       | Except.ok _ => false
   | Except.error _ => false) ||
  (match item.coverImg with | some none => true | _ => false)

/-- `AutoScrollController` state (source lines 52-85).  `connections` counts
how many times `timer.timeout.connect(self._scroll_step)` has been executed:
Qt signal connections accumulate, and the source never disconnects. -/
structure Pacer where
  active : Bool
  timerRunning : Bool
  intervalMs : Int
  connections : Nat
  lastHeight : Int
  retryCount : Nat
deriving DecidableEq

/-- `AutoScrollController.__init__` (source lines 56-68): 3000 ms interval,
timer not started, no connection made yet, inactive. -/
def Pacer.init : Pacer :=
  { active := false, timerRunning := false, intervalMs := 3000,
    connections := 0, lastHeight := 0, retryCount := 0 }

/-- `AutoScrollController.start` (source lines 70-77): when idle, become
active, connect `timeout` to `_scroll_step` (one more accumulated
connection) and start the timer; when already active, do nothing. -/
def Pacer.start (p : Pacer) : Pacer :=
  if p.active then p
  else { p with active := true, connections := p.connections + 1,
                timerRunning := true }

/-- `AutoScrollController.stop` (source lines 79-85): when active, become
inactive and stop the timer; the `timeout` connections are NOT
disconnected.  When already idle, do nothing. -/
def Pacer.stop (p : Pacer) : Pacer :=
  if p.active then { p with active := false, timerRunning := false }
  else p

/-- How many times `_scroll_step` runs on one timer tick: once per
accumulated `timeout` connection while the timer runs, never when the timer
is stopped. -/
def Pacer.tickRuns (p : Pacer) : Nat :=
  if p.timerRunning then p.connections else 0

/-- The page's asynchronous report delivered to `_handle_scroll`: either the
empty/degenerate result (`result == {}`) or the structured
`{height, item_count, loading}` value produced by the injected script. -/
inductive ScrollResult
  | empty
  | report (height itemCount : Int) (loading : Bool)
deriving DecidableEq

/-- The `loading` flag of a report (`result.get('loading', False)`). -/
def ScrollResult.isLoading : ScrollResult → Bool
  | ScrollResult.empty => false
  | ScrollResult.report _ _ loading => loading

/-- Observable effects of one `_handle_scroll` invocation: how many times
the capture callback was invoked, and whether a 1500 ms retry
(`QTimer.singleShot(1500, self._scroll_step)`) was scheduled. -/
structure ScrollEffects where
  captureCalls : Nat
  retryScheduled : Bool
deriving DecidableEq

/-- `AutoScrollController._handle_scroll` (source lines 121-133): invokes
`self.callback()` unconditionally, returns early on an empty result, and
schedules the 1500 ms retry when the report says the page is still loading.
It reads no controller state — in particular it never consults
`self.active`. -/
def handle_scroll (r : ScrollResult) : ScrollEffects :=
  { captureCalls := 1, retryScheduled := r.isLoading }

/-- Alternating `stop`-then-`start` from the initial state: `kTransitions k`
is the pacer state after `k` idle-to-active transitions (the first `stop` is
a no-op on the idle initial state). -/
def kTransitions : Nat → Pacer
  | 0 => Pacer.init
  | Nat.succ k => ((kTransitions k).stop).start

/-- A concrete hash instance used by the closed witnesses below; the claim
theorems hold for every `hash : Str → Str`. -/
def idHash : Str → Str := fun s => s

/-- A well-formed visible fragment with every sub-element present. -/
def fragGood : Fragment :=
  { style := []
    noteLinkHref := some (pyStr "/explore/abc123?xsec_token=X")
    author := some { href := pyStr "/user/profile/42", nameText := some (pyStr "alice") }
    likeCount := some (some (pyStr "1.2万+"))
    coverImg := some (some (pyStr "https://img.example/c.jpg"))
    titleText := some (pyStr "hello")
    imgSrcs := [pyStr "https://img.example/c.jpg"] }

/-- A visible fragment with a canonical link whose optional sub-elements are
all absent. -/
def fragBare : Fragment :=
  { style := []
    noteLinkHref := some (pyStr "/explore/def456?xsec_token=Y")
    author := none
    likeCount := none
    coverImg := none
    titleText := none
    imgSrcs := [] }

/-- A visible fragment with a canonical link whose author anchor exists but
has no `.name` descendant: `_extract_note_info` raises on it. -/
def fragNoName : Fragment :=
  { style := []
    noteLinkHref := some (pyStr "/explore/xyz789?xsec_token=Z")
    author := some { href := pyStr "/user/profile/7", nameText := none }
    likeCount := none
    coverImg := none
    titleText := some (pyStr "poison")
    imgSrcs := [] }

/-- A visible fragment whose like-count text is `"inf"`: the float parse
succeeds with an infinity and `int()` raises an uncaught `OverflowError`. -/
def fragInfLikes : Fragment :=
  { style := []
    noteLinkHref := some (pyStr "/explore/ovf000?xsec_token=V")
    author := none
    likeCount := some (some (pyStr "inf"))
    coverImg := none
    titleText := none
    imgSrcs := [] }

/-- A visible fragment whose like-count text is the numeral `"-5"`. -/
def fragNegLikes : Fragment :=
  { style := []
    noteLinkHref := some (pyStr "/explore/neg000?xsec_token=W")
    author := none
    likeCount := some (some (pyStr "-5"))
    coverImg := none
    titleText := none
    imgSrcs := [] }

/-- The part of `urljoin base_url (p ++ '?' :: q)` that precedes the query,
as a function of the pre-query part `p` alone (the branch taken by `urljoin`
never depends on the text after the first `'?'`). -/
def urljoinHead (p : Str) : Str :=
  if hasScheme p then p
  else if p.take 2 = pyStr "//" then pyStr "https:" ++ p
  else if p.take 1 = pyStr "/" then base_url ++ p
  else if p = [] then base_url
  else if p.take 1 = pyStr "#" then base_url ++ p
  else base_url ++ pyStr "/" ++ p

/-- The record `parse_html` produces for `fragGood` at capture time 5 under
the hash instance `idHash`. -/
def fragGoodNote : NoteData :=
  { id := pyStr "abc123"
    title := pyStr "hello"
    url := pyStr "https://www.xiaohongshu.com/explore/abc123?xsec_token=X"
    author := pyStr "alice"
    author_link := pyStr "https://www.xiaohongshu.com/user/profile/42"
    likes := 12000
    cover := pyStr "https://img.example/c.jpg"
    images := [pyStr "https://img.example/c.jpg"]
    timestamp := 5 }

/-- Characters of a clean numeral: not a marker, not a multiplier suffix,
not whitespace. -/
def cleanNumeral (ds : Str) : Prop :=
  ∀ c ∈ ds, c ≠ '+' ∧ c ≠ '万' ∧ c ≠ '千' ∧ c.isWhitespace = false

/-- The clean-numeral property is checkable. -/
instance (ds : Str) : Decidable (cleanNumeral ds) :=
  List.decidableBAll _ ds

/-- A `dropWhile` whose predicate fails on every element is the identity. -/
theorem dropWhile_eq_self_of (p : Char → Bool) (s : Str)
    (h : ∀ c ∈ s, p c = false) : s.dropWhile p = s := by
  cases s with
  | nil => rfl
  | cons c t => simp [List.dropWhile_cons, h c (List.mem_cons_self c t)]

/-- Stripping a string with no whitespace anywhere is the identity. -/
theorem pyStrip_eq_self (s : Str) (h : ∀ c ∈ s, c.isWhitespace = false) :
    pyStrip s = s := by
  unfold pyStrip
  rw [dropWhile_eq_self_of _ s h,
      dropWhile_eq_self_of _ s.reverse (fun c hc => h c (List.mem_reverse.mp hc))]
  exact List.reverse_reverse s

/-- Filtering out a character that does not occur is the identity. -/
theorem filter_ne_eq_self (x : Char) (s : Str) (h : ∀ c ∈ s, c ≠ x) :
    s.filter (fun c => c != x) = s := by
  induction s with
  | nil => rfl
  | cons c t ih =>
      have hc : (c != x) = true := by
        simp only [bne_iff_ne, ne_eq]
        exact h c (List.mem_cons_self c t)
      simp only [List.filter_cons, hc, if_pos]
      rw [ih (fun d hd => h d (List.mem_cons_of_mem c hd))]

/-- Taking up to a separator that occurs right after a separator-free block
returns the block. -/
theorem takeWhile_ne_append (sep : Char) (a b : Str) (h : sep ∉ a) :
    (a ++ sep :: b).takeWhile (fun c => c != sep) = a := by
  induction a with
  | nil => simp [List.takeWhile_cons]
  | cons c t ih =>
      have hc : (c != sep) = true := by
        simp only [bne_iff_ne, ne_eq]
        exact fun e => h (List.mem_cons.mpr (Or.inl e.symm))
      simp only [List.cons_append, List.takeWhile_cons, hc, if_pos]
      rw [ih (fun hm => h (List.mem_cons_of_mem c hm))]

/-- Python `split(sep)[0]` of `a + sep + b` with `sep` free `a` is `a`. -/
theorem split_head_append (sep : Char) (a b : Str) (h : sep ∉ a) :
    split_head sep (a ++ sep :: b) = a :=
  takeWhile_ne_append sep a b h

/-- Truncation toward zero of a signed natural fraction is the signed
quotient of naturals. -/
theorem ratTrunc_signed_div (neg : Bool) (m d : Nat) (hd : d ≠ 0) :
    ratTrunc ((if neg then (-1 : ℚ) else 1) * (m : ℚ) / (d : ℚ)) =
      (if neg then -1 else 1) * ((m / d : ℕ) : ℤ) := by
  have hd0 : (0 : ℚ) < (d : ℚ) := by exact_mod_cast Nat.pos_of_ne_zero hd
  cases neg
  · have h0 : (0 : ℚ) ≤ (m : ℚ) / (d : ℚ) := by positivity
    have hval : (if (false : Bool) then (-1 : ℚ) else 1) * (m : ℚ) / (d : ℚ) =
        (m : ℚ) / (d : ℚ) := by norm_num
    rw [hval, ratTrunc, if_pos h0, Rat.floor_natCast_div_natCast]
    simp
  · have hval : (if (true : Bool) then (-1 : ℚ) else 1) * (m : ℚ) / (d : ℚ) =
        -((m : ℚ) / (d : ℚ)) := by
      norm_num
      ring
    by_cases hm : m = 0
    · subst hm
      rw [hval, ratTrunc]
      norm_num
    · have hpos : (0 : ℚ) < (m : ℚ) / (d : ℚ) :=
        div_pos (by exact_mod_cast Nat.pos_of_ne_zero hm) hd0
      have hneg : ¬ (0 : ℚ) ≤ (if (true : Bool) then (-1 : ℚ) else 1) * (m : ℚ) / (d : ℚ) := by
        rw [hval]
        push_neg
        linarith
      rw [ratTrunc, if_neg hneg, hval, Int.ceil_neg, Rat.floor_natCast_div_natCast]
      simp

/-- On a finite float of rational value `q`, `int()` returns the
truncation of `q` toward zero. -/
theorem ftrunc_finite (neg : Bool) (m : Nat) (e : Int) (q : ℚ)
    (hq : (PyFloat.finite neg m e).val = some q) :
    ftrunc (PyFloat.finite neg m e) = Except.ok (ratTrunc q) := by
  unfold PyFloat.val at hq
  injection hq with hq2
  rcases e with k | k
  · have hval : q = (if neg then (-1 : ℚ) else 1) * ((m * 2 ^ k : ℕ) : ℚ) / ((1 : ℕ) : ℚ) := by
      rw [← hq2, show ((2 : ℚ) ^ (Int.ofNat k)) = (2 : ℚ) ^ k from zpow_natCast 2 k]
      push_cast
      ring
    unfold ftrunc
    rw [hval, ratTrunc_signed_div neg (m * 2 ^ k) 1 (by norm_num)]
    norm_num
  · have hval : q = (if neg then (-1 : ℚ) else 1) * (m : ℚ) / ((2 ^ (k + 1) : ℕ) : ℚ) := by
      rw [← hq2, zpow_negSucc]
      push_cast
      ring
    unfold ftrunc
    rw [hval, ratTrunc_signed_div neg m (2 ^ (k + 1)) (by positivity)]
    norm_num
    rw [show (-Int.negSucc k).toNat = k + 1 from rfl]

/-- The normalizer on a text whose pipeline yields a finite float returns
its truncation toward zero. -/
theorem parse_like_finite (t : Str) (f : PyFloat) (q : ℚ)
    (hf : likeValue? t = some f) (hq : f.val = some q) :
    parse_like_count t = Except.ok (ratTrunc q) := by
  cases f with
  | finite neg m e =>
      have hft := ftrunc_finite neg m e q hq
      simp only [parse_like_count, hf, hft]
  | inf b => simp [PyFloat.val] at hq
  | nan => simp [PyFloat.val] at hq

/-- The normalizer on a text whose pipeline yields an infinity raises an
uncaught `OverflowError`. -/
theorem parse_like_inf (t : Str) (b : Bool)
    (hf : likeValue? t = some (PyFloat.inf b)) :
    parse_like_count t = Except.error PyError.overflowError := by
  simp only [parse_like_count, hf]
  rfl

/-- The normalizer on a text whose pipeline yields a nan returns 0: the
`ValueError` from `int(nan)` is caught. -/
theorem parse_like_nan (t : Str) (hf : likeValue? t = some PyFloat.nan) :
    parse_like_count t = Except.ok 0 := by
  simp only [parse_like_count, hf]
  rfl

/-- Normalizing a text with no `'+'` and no whitespace is the identity. -/
theorem normText_eq_self (s : Str) (hplus : ∀ c ∈ s, c ≠ '+')
    (hws : ∀ c ∈ s, c.isWhitespace = false) : normText s = s := by
  unfold normText
  rw [filter_ne_eq_self '+' s hplus, pyStrip_eq_self s hws]

/-- On a clean numeral followed by the `万` suffix, the `try`-block value is
the parsed number scaled by 10000. -/
theorem likeValue_wan (ds : Str) (v : PyFloat) (hds : cleanNumeral ds)
    (hv : pyFloat? ds = some v) :
    likeValue? (ds ++ ['万']) = some (fmulNat v 10000) := by
  have hnorm : normText (ds ++ ['万']) = ds ++ ['万'] := by
    apply normText_eq_self
    · intro c hc
      rcases List.mem_append.mp hc with hc1 | hc2
      · exact (hds c hc1).1
      · rw [List.mem_singleton.mp hc2]; decide
    · intro c hc
      rcases List.mem_append.mp hc with hc1 | hc2
      · exact (hds c hc1).2.2.2
      · rw [List.mem_singleton.mp hc2]; decide
  have hmem : '万' ∈ ds ++ ['万'] :=
    List.mem_append.mpr (Or.inr (List.mem_singleton.mpr rfl))
  have hfil : (ds ++ ['万']).filter (fun c => c != '万') = ds := by
    rw [List.filter_append, filter_ne_eq_self '万' ds (fun c hc => (hds c hc).2.1)]
    simp
  simp only [likeValue?, hnorm, if_pos hmem, hfil, hv]
  rfl

/-- On a clean numeral followed by the `千` suffix, the `try`-block value is
the parsed number scaled by 1000. -/
theorem likeValue_qian (ds : Str) (v : PyFloat) (hds : cleanNumeral ds)
    (hv : pyFloat? ds = some v) :
    likeValue? (ds ++ ['千']) = some (fmulNat v 1000) := by
  have hnorm : normText (ds ++ ['千']) = ds ++ ['千'] := by
    apply normText_eq_self
    · intro c hc
      rcases List.mem_append.mp hc with hc1 | hc2
      · exact (hds c hc1).1
      · rw [List.mem_singleton.mp hc2]; decide
    · intro c hc
      rcases List.mem_append.mp hc with hc1 | hc2
      · exact (hds c hc1).2.2.2
      · rw [List.mem_singleton.mp hc2]; decide
  have hnw : '万' ∉ ds ++ ['千'] := by
    intro hc
    rcases List.mem_append.mp hc with hc1 | hc2
    · exact (hds '万' hc1).2.1 rfl
    · exact absurd (List.mem_singleton.mp hc2) (by decide)
  have hmem : '千' ∈ ds ++ ['千'] :=
    List.mem_append.mpr (Or.inr (List.mem_singleton.mpr rfl))
  have hfil : (ds ++ ['千']).filter (fun c => c != '千') = ds := by
    rw [List.filter_append, filter_ne_eq_self '千' ds (fun c hc => (hds c hc).2.2.1)]
    simp
  simp only [likeValue?, hnorm, if_neg hnw, if_pos hmem, hfil, hv]
  rfl

/-- On a clean numeral with no suffix, the `try`-block value is the parsed
number itself. -/
theorem likeValue_plain (ds : Str) (hds : cleanNumeral ds) :
    likeValue? ds = pyFloat? ds := by
  have hnorm : normText ds = ds :=
    normText_eq_self ds (fun c hc => (hds c hc).1) (fun c hc => (hds c hc).2.2.2)
  have hnw : '万' ∉ ds := fun hc => (hds '万' hc).2.1 rfl
  have hnq : '千' ∉ ds := fun hc => (hds '千' hc).2.2.1 rfl
  simp only [likeValue?, hnorm, if_neg hnw, if_neg hnq]

/-- Scheme detection never looks past the first `'?'`. -/
theorem hasSchemeAux_append (b : Bool) (p q : Str) :
    hasSchemeAux b (p ++ '?' :: q) = hasSchemeAux b p := by
  induction p generalizing b with
  | nil => simp [hasSchemeAux, isSchemeChar]
  | cons c t ih =>
      simp only [List.cons_append, hasSchemeAux]
      by_cases hc : c = ':'
      · simp [hc]
      · by_cases hs : isSchemeChar c = true
        · simp [hc, hs, ih]
        · simp [hc, hs]

/-- Whether the first two characters are `"//"` is decided before the first
`'?'`. -/
theorem take_two_query (p q : Str) :
    ((p ++ '?' :: q).take 2 = pyStr "//") ↔ (p.take 2 = pyStr "//") := by
  have e : pyStr "//" = ['/', '/'] := rfl
  have hq : ¬ (('?' : Char) = '/') := by decide
  rw [e]
  match p with
  | [] => cases q <;> simp [hq]
  | [c] => simp [hq]
  | c1 :: c2 :: r => simp

/-- Whether the first character equals a given non-query character is
decided before the first `'?'`. -/
theorem take_one_query (p q : Str) (x : Char) (hx : x ≠ '?') :
    ((p ++ '?' :: q).take 1 = [x]) ↔ (p.take 1 = [x]) := by
  match p with
  | [] =>
      simp only [List.nil_append, List.take_succ_cons, List.take_zero,
        List.take_nil, List.cons.injEq, and_true]
      constructor
      · intro hc
        exact absurd hc.symm hx
      · intro hc
        simp at hc
  | c :: r => simp

/-- The first character is `'?'` exactly when the pre-query part is empty. -/
theorem take_one_query_self (p q : Str) (h : '?' ∉ p) :
    ((p ++ '?' :: q).take 1 = ['?']) ↔ p = [] := by
  match p with
  | [] => simp
  | c :: r =>
      simp only [List.cons_append, List.take_succ_cons, List.take_zero,
        List.cons.injEq, and_true]
      constructor
      · intro hc
        exact absurd (List.mem_cons.mpr (Or.inl hc.symm)) h
      · intro hc
        cases hc

/-- A string containing `'?'` is nonempty. -/
theorem append_query_ne_nil (p q : Str) : p ++ '?' :: q ≠ [] := by
  simp

/-- The `urljoin` of the fixed base with a reference containing a query
splits as the pre-query head followed by the query. -/
theorem urljoin_query_split (p q : Str) (h : '?' ∉ p) :
    urljoin base_url (p ++ '?' :: q) = urljoinHead p ++ '?' :: q := by
  unfold urljoin urljoinHead
  have e1 : pyStr "/" = ['/'] := rfl
  have e2 : pyStr "#" = ['#'] := rfl
  have e3 : pyStr "?" = ['?'] := rfl
  rw [if_neg (append_query_ne_nil p q), e1, e2, e3]
  have hs : hasScheme (p ++ '?' :: q) = hasScheme p := hasSchemeAux_append false p q
  by_cases h1 : hasScheme p = true
  · rw [if_pos (hs.trans h1), if_pos h1]
  · rw [if_neg (fun hh => h1 (hs.symm.trans hh)), if_neg h1]
    by_cases h2 : p.take 2 = pyStr "//"
    · rw [if_pos ((take_two_query p q).mpr h2), if_pos h2, List.append_assoc]
    · rw [if_neg (fun hh => h2 ((take_two_query p q).mp hh)), if_neg h2]
      by_cases h3 : p.take 1 = ['/']
      · rw [if_pos ((take_one_query p q '/' (by decide)).mpr h3), if_pos h3,
            List.append_assoc]
      · rw [if_neg (fun hh => h3 ((take_one_query p q '/' (by decide)).mp hh)),
            if_neg h3]
        by_cases h4 : p = []
        · rw [if_pos ((take_one_query_self p q h).mpr h4), if_pos h4, h4]
          simp
        · rw [if_neg (fun hh => h4 ((take_one_query_self p q h).mp hh)), if_neg h4]
          by_cases h5 : p.take 1 = ['#']
          · rw [if_pos ((take_one_query p q '#' (by decide)).mpr h5), if_pos h5,
                List.append_assoc]
          · rw [if_neg (fun hh => h5 ((take_one_query p q '#' (by decide)).mp hh)),
                if_neg h5]
            simp

/-- The pre-query head contains no `'?'` when the reference's pre-query part
contains none. -/
theorem urljoinHead_no_query (p : Str) (h : '?' ∉ p) : '?' ∉ urljoinHead p := by
  have hb : '?' ∉ base_url := by decide
  have hh : '?' ∉ pyStr "https:" := by decide
  have hsl : '?' ∉ pyStr "/" := by decide
  unfold urljoinHead
  repeat' split
  all_goals intro hc
  all_goals first
    | exact h hc
    | exact hb hc
    | (rcases List.mem_append.mp hc with hc1 | hc2
       · first | exact hb hc1 | exact hh hc1
       · exact h hc2)
    | (rcases List.mem_append.mp hc with hc1 | hc2
       · rcases List.mem_append.mp hc1 with hc3 | hc4
         · exact hb hc3
         · exact hsl hc4
       · exact h hc2)

/-- The derived core id of a query-carrying reference depends only on the
pre-query part. -/
theorem note_core_query (p q : Str) (h : '?' ∉ p) :
    note_core_id (urljoin base_url (p ++ '?' :: q)) =
      split_last '/' (urljoinHead p) := by
  rw [urljoin_query_split p q h]
  unfold note_core_id
  rw [split_head_append '?' (urljoinHead p) q (urljoinHead_no_query p h)]

/-- A successful author-name extraction falsifies the author disjunct of
`extractRaises`. -/
theorem author_disj_false (item : Fragment) (an : Str)
    (h : author_name_of item = Except.ok an) :
    (match item.author with
     | some a => a.nameText.isNone
     | none => false) = false := by
  rcases hau : item.author with _ | a
  · rfl
  · rcases hnm : a.nameText with _ | nm
    · exfalso
      unfold author_name_of at h
      rw [hau] at h
      simp [hnm] at h
    · simp [hnm]

/-- A successful like-text extraction falsifies the like-wrapper disjunct
of `extractRaises`. -/
theorem like_disj_false (item : Fragment) (lt : Str)
    (h : like_text_of item = Except.ok lt) :
    (match item.likeCount with | some none => true | _ => false) = false := by
  rcases hlc : item.likeCount with _ | (_ | t)
  · rfl
  · exfalso
    unfold like_text_of at h
    rw [hlc] at h
    simp at h
  · rfl

/-- A successful like-count conversion falsifies the overflow disjunct of
`extractRaises`. -/
theorem parse_disj_false (item : Fragment) (lt : Str) (n : Int)
    (hl : like_text_of item = Except.ok lt)
    (hp : parse_like_count lt = Except.ok n) :
    (match like_text_of item with
     | Except.ok t =>
         match parse_like_count t with
         | Except.error _ => true
         | Except.ok _ => false
     | Except.error _ => false) = false := by
  rw [hl]
  simp [hp]

/-- A successful cover extraction falsifies the cover disjunct of
`extractRaises`. -/
theorem cover_disj_false (item : Fragment) (cu : Str)
    (h : cover_url_of item = Except.ok cu) :
    (match item.coverImg with | some none => true | _ => false) = false := by
  rcases hcv : item.coverImg with _ | (_ | src)
  · rfl
  · exfalso
    unfold cover_url_of at h
    rw [hcv] at h
    simp at h
  · rfl

/-- When a fragment has one of the raising shapes, `_extract_note_info`
raises on it. -/
theorem extract_error_of_raises (item : Fragment) (b nid u : Str) (now : Int)
    (h : extractRaises item = true) :
    ∃ e, extract_note_info item b nid u now = Except.error e := by
  cases han : author_name_of item with
  | error e => exact ⟨e, by unfold extract_note_info; simp only [han]⟩
  | ok an =>
    cases hlt : like_text_of item with
    | error e => exact ⟨e, by unfold extract_note_info; simp only [han, hlt]⟩
    | ok lt =>
      cases hpl : parse_like_count lt with
      | error e => exact ⟨e, by unfold extract_note_info; simp only [han, hlt, hpl]⟩
      | ok n =>
        cases hcv : cover_url_of item with
        | error e =>
            exact ⟨e, by unfold extract_note_info; simp only [han, hlt, hpl, hcv]⟩
        | ok cu =>
          exfalso
          unfold extractRaises at h
          rw [author_disj_false item an han, like_disj_false item lt hlt,
              parse_disj_false item lt n hlt hpl,
              cover_disj_false item cu hcv] at h
          simp at h

/-- The author-name sub-extraction succeeds on non-raising fragments. -/
theorem author_ok_of_not_raises (item : Fragment)
    (h : extractRaises item = false) :
    ∃ an, author_name_of item = Except.ok an := by
  rcases hau : item.author with _ | a
  · exact ⟨[], by unfold author_name_of; rw [hau]⟩
  · rcases hnm : a.nameText with _ | nm
    · exfalso
      unfold extractRaises at h
      rw [hau] at h
      simp [hnm] at h
    · exact ⟨nm, by unfold author_name_of; rw [hau]; simp [hnm]⟩

/-- The like-text sub-extraction succeeds on non-raising fragments. -/
theorem like_ok_of_not_raises (item : Fragment)
    (h : extractRaises item = false) :
    ∃ lt, like_text_of item = Except.ok lt := by
  rcases hlc : item.likeCount with _ | (_ | lt)
  · exact ⟨pyStr "0", by unfold like_text_of; rw [hlc]⟩
  · exfalso
    unfold extractRaises at h
    rw [hlc] at h
    simp at h
  · exact ⟨lt, by unfold like_text_of; rw [hlc]⟩

/-- The like-count conversion succeeds on non-raising fragments. -/
theorem likes_ok_of_not_raises (item : Fragment) (lt : Str)
    (h : extractRaises item = false)
    (hl : like_text_of item = Except.ok lt) :
    ∃ n, parse_like_count lt = Except.ok n := by
  cases hp : parse_like_count lt with
  | ok n => exact ⟨n, rfl⟩
  | error e =>
      exfalso
      unfold extractRaises at h
      rw [hl] at h
      simp [hp] at h

/-- The cover-url sub-extraction succeeds on non-raising fragments. -/
theorem cover_ok_of_not_raises (item : Fragment)
    (h : extractRaises item = false) :
    ∃ cu, cover_url_of item = Except.ok cu := by
  rcases hcv : item.coverImg with _ | (_ | cu)
  · exact ⟨[], by unfold cover_url_of; rw [hcv]⟩
  · exfalso
    unfold extractRaises at h
    rw [hcv] at h
    simp at h
  · exact ⟨cu, by unfold cover_url_of; rw [hcv]⟩

/-- The record `_extract_note_info` builds when all four sub-steps
succeed. -/
theorem extract_ok_explicit (item : Fragment) (b nid u : Str) (now : Int)
    (an lt cu : Str) (lk : Int)
    (han : author_name_of item = Except.ok an)
    (hlt : like_text_of item = Except.ok lt)
    (hpl : parse_like_count lt = Except.ok lk)
    (hcv : cover_url_of item = Except.ok cu) :
    extract_note_info item b nid u now = Except.ok
      { id := nid
        title := (item.titleText).getD []
        url := u
        author := an
        author_link := match item.author with
          | some a => urljoin b a.href
          | none => []
        likes := lk
        cover := cu
        images := item.imgSrcs
        timestamp := now } := by
  unfold extract_note_info
  simp only [han, hlt, hpl, hcv]

/-- A successfully extracted record carries the id it was given. -/
theorem extract_ok_id (item : Fragment) (b nid u : Str) (now : Int)
    (nd : NoteData)
    (h : extract_note_info item b nid u now = Except.ok nd) : nd.id = nid := by
  unfold extract_note_info at h
  cases han : author_name_of item <;> simp only [han] at h
  case error => simp at h
  case ok an =>
    cases hlt : like_text_of item <;> simp only [hlt] at h
    case error => simp at h
    case ok lt =>
      cases hpl : parse_like_count lt <;> simp only [hpl] at h
      case error => simp at h
      case ok lk =>
        cases hcv : cover_url_of item <;> simp only [hcv] at h
        case error => simp at h
        case ok cu =>
          cases h
          rfl

/-- On fragments free of the four raising shapes, extraction succeeds and
missing optional sub-elements degrade to the empty string (0 for likes). -/
theorem extract_ok_of_not_raises (item : Fragment) (b nid u : Str) (now : Int)
    (h : extractRaises item = false) :
    ∃ nd, extract_note_info item b nid u now = Except.ok nd ∧
      nd.id = nid ∧
      (item.titleText = none → nd.title = []) ∧
      (item.author = none → nd.author = [] ∧ nd.author_link = []) ∧
      (item.coverImg = none → nd.cover = []) ∧
      (item.likeCount = none → nd.likes = 0) := by
  obtain ⟨an, han⟩ := author_ok_of_not_raises item h
  obtain ⟨lt, hlt⟩ := like_ok_of_not_raises item h
  obtain ⟨lk, hpl⟩ := likes_ok_of_not_raises item lt h hlt
  obtain ⟨cu, hcv⟩ := cover_ok_of_not_raises item h
  refine ⟨_, extract_ok_explicit item b nid u now an lt cu lk han hlt hpl hcv,
    rfl, ?_, ?_, ?_, ?_⟩
  · intro htt
    show (item.titleText).getD [] = []
    rw [htt]
    rfl
  · intro hau
    have hone : author_name_of item = Except.ok [] := by
      unfold author_name_of
      rw [hau]
    have h2 := hone.symm.trans han
    injection h2 with h3
    constructor
    · show an = []
      exact h3.symm
    · show (match item.author with
        | some a => urljoin b a.href
        | none => []) = []
      rw [hau]
  · intro hcv2
    have hone : cover_url_of item = Except.ok [] := by
      unfold cover_url_of
      rw [hcv2]
    have h2 := hone.symm.trans hcv
    injection h2 with h3
    show cu = []
    exact h3.symm
  · intro hlc
    have hone : like_text_of item = Except.ok (pyStr "0") := by
      unfold like_text_of
      rw [hlc]
    have h2 := hone.symm.trans hlt
    injection h2 with h3
    show lk = 0
    have hzero : parse_like_count (pyStr "0") = Except.ok 0 := by decide
    rw [h3] at hzero
    have h4 := hzero.symm.trans hpl
    injection h4 with h5
    exact h5.symm

/-- A hidden fragment leaves the loop accumulator unchanged. -/
theorem process_item_hidden (hash : Str → Str) (now : Int)
    (acc : Finset Str × List NoteData) (item : Fragment)
    (h : hiddenItem item = true) : process_item hash now acc item = acc := by
  simp [process_item, h]

/-- A fragment without the canonical link leaves the accumulator
unchanged. -/
theorem process_item_nolink (hash : Str → Str) (now : Int)
    (acc : Finset Str × List NoteData) (item : Fragment)
    (h1 : hiddenItem item = false) (h2 : item.noteLinkHref = none) :
    process_item hash now acc item = acc := by
  simp [process_item, h1, h2]

/-- A fragment whose derived id is already collected leaves the accumulator
unchanged. -/
theorem process_item_dup (hash : Str → Str) (now : Int)
    (acc : Finset Str × List NoteData) (item : Fragment) (href : Str)
    (h1 : hiddenItem item = false) (h2 : item.noteLinkHref = some href)
    (h3 : note_id_of hash (urljoin base_url href) ∈ acc.1) :
    process_item hash now acc item = acc := by
  simp [process_item, h1, h2, h3]

/-- A fragment on which extraction raises leaves the accumulator
unchanged (per-fragment `except` at source lines 388-390). -/
theorem process_item_err (hash : Str → Str) (now : Int)
    (acc : Finset Str × List NoteData) (item : Fragment) (href : Str)
    (e : PyError)
    (h1 : hiddenItem item = false) (h2 : item.noteLinkHref = some href)
    (h3 : note_id_of hash (urljoin base_url href) ∉ acc.1)
    (h4 : extract_note_info item base_url
      (note_id_of hash (urljoin base_url href)) (urljoin base_url href) now =
        Except.error e) :
    process_item hash now acc item = acc := by
  simp [process_item, h1, h2, h3, h4]

/-- A fresh, visible, linked, extractable fragment registers its id and
appends its record. -/
theorem process_item_new (hash : Str → Str) (now : Int)
    (acc : Finset Str × List NoteData) (item : Fragment) (href : Str)
    (nd : NoteData)
    (h1 : hiddenItem item = false) (h2 : item.noteLinkHref = some href)
    (h3 : note_id_of hash (urljoin base_url href) ∉ acc.1)
    (h4 : extract_note_info item base_url
      (note_id_of hash (urljoin base_url href)) (urljoin base_url href) now =
        Except.ok nd) :
    process_item hash now acc item =
      (insert (note_id_of hash (urljoin base_url href)) acc.1,
        acc.2 ++ [nd]) := by
  simp [process_item, h1, h2, h3, h4]

/-- One loop step never removes collected ids. -/
theorem process_item_subset (hash : Str → Str) (now : Int)
    (acc : Finset Str × List NoteData) (item : Fragment) :
    acc.1 ⊆ (process_item hash now acc item).1 := by
  by_cases hh : hiddenItem item
  · rw [process_item_hidden hash now acc item hh]
  · rcases hhref : item.noteLinkHref with _ | href
    · rw [process_item_nolink hash now acc item (Bool.not_eq_true _ |>.mp hh) hhref]
    · by_cases hmem : note_id_of hash (urljoin base_url href) ∈ acc.1
      · rw [process_item_dup hash now acc item href
          (Bool.not_eq_true _ |>.mp hh) hhref hmem]
      · cases hex : extract_note_info item base_url
          (note_id_of hash (urljoin base_url href)) (urljoin base_url href) now with
        | error e =>
          rw [process_item_err hash now acc item href e
            (Bool.not_eq_true _ |>.mp hh) hhref hmem hex]
        | ok nd =>
          rw [process_item_new hash now acc item href nd
            (Bool.not_eq_true _ |>.mp hh) hhref hmem hex]
          exact Finset.subset_insert _ _

/-- A fragment whose derived id is already collected is a complete no-op
for the loop. -/
theorem process_item_skip (hash : Str → Str) (now : Int)
    (acc : Finset Str × List NoteData) (item : Fragment) (nid : Str)
    (h1 : deriveId? hash item = some nid) (h2 : nid ∈ acc.1) :
    process_item hash now acc item = acc := by
  unfold deriveId? at h1
  by_cases hh : hiddenItem item
  · rw [if_pos hh] at h1
    cases h1
  · rw [if_neg hh] at h1
    rcases hhref : item.noteLinkHref with _ | href
    · rw [hhref] at h1
      cases h1
    · rw [hhref] at h1
      injection h1 with h3
      subst h3
      exact process_item_dup hash now acc item href
        (Bool.not_eq_true _ |>.mp hh) hhref h2

/-- A fragment on which extraction raises is a complete no-op for the
loop. -/
theorem process_item_raising (hash : Str → Str) (now : Int)
    (acc : Finset Str × List NoteData) (item : Fragment)
    (h : extractRaises item = true) :
    process_item hash now acc item = acc := by
  by_cases hh : hiddenItem item
  · exact process_item_hidden hash now acc item hh
  · rcases hhref : item.noteLinkHref with _ | href
    · exact process_item_nolink hash now acc item
        (Bool.not_eq_true _ |>.mp hh) hhref
    · by_cases hmem : note_id_of hash (urljoin base_url href) ∈ acc.1
      · exact process_item_dup hash now acc item href
          (Bool.not_eq_true _ |>.mp hh) hhref hmem
      · obtain ⟨e, he⟩ := extract_error_of_raises item base_url
          (note_id_of hash (urljoin base_url href)) (urljoin base_url href)
          now h
        exact process_item_err hash now acc item href e
          (Bool.not_eq_true _ |>.mp hh) hhref hmem he

/-- The capture loop never removes collected ids. -/
theorem foldl_subset (hash : Str → Str) (now : Int) (frags : List Fragment)
    (acc : Finset Str × List NoteData) :
    acc.1 ⊆ (frags.foldl (process_item hash now) acc).1 := by
  induction frags generalizing acc with
  | nil => exact fun x hx => hx
  | cons it rest ih =>
      rw [List.foldl_cons]
      exact (process_item_subset hash now acc it).trans
        (ih (process_item hash now acc it))

/-- A pass in which every fragment's derived id is already collected leaves
the accumulator unchanged. -/
theorem foldl_all_dup (hash : Str → Str) (now : Int) (frags : List Fragment)
    (seen : Finset Str) (ns : List NoteData)
    (h : ∀ item ∈ frags, ∃ nid, deriveId? hash item = some nid ∧ nid ∈ seen) :
    frags.foldl (process_item hash now) (seen, ns) = (seen, ns) := by
  induction frags with
  | nil => rfl
  | cons it rest ih =>
      rw [List.foldl_cons]
      obtain ⟨nid, h1, h2⟩ := h it (List.mem_cons_self it rest)
      rw [process_item_skip hash now (seen, ns) it nid h1 h2]
      exact ih (fun x hx => h x (List.mem_cons_of_mem it hx))

/-- Removing a raising fragment from a pass does not change the pass. -/
theorem foldl_drop_raising (hash : Str → Str) (now : Int)
    (l1 l2 : List Fragment) (item : Fragment)
    (acc : Finset Str × List NoteData)
    (h : extractRaises item = true) :
    (l1 ++ item :: l2).foldl (process_item hash now) acc =
      (l1 ++ l2).foldl (process_item hash now) acc := by
  rw [List.foldl_append, List.foldl_append, List.foldl_cons,
      process_item_raising hash now _ item h]

/-- Pacer state after `k + 1` idle-to-active transitions. -/
theorem kTransitions_succ (k : Nat) :
    kTransitions (k + 1) =
      { active := true, timerRunning := true, intervalMs := 3000,
        connections := k + 1, lastHeight := 0, retryCount := 0 } := by
  induction k with
  | zero => rfl
  | succ k ih =>
      show ((kTransitions (k + 1)).stop).start = _
      rw [ih]
      rfl

/-- Claim C1 (code bug): the spec says a whole-page parse failure inside
`parse_html` is caught and logged and the capture routine returns normally
for every input; in the code the `except` branch calls
`self.handle_html_error`, an attribute `BrowserTab` never defines, so a
failing parse makes `parse_html` raise `AttributeError` instead of
returning. -/
theorem parse_html_raises_when_parse_throws :
    parse_html idHash ∅ Html.bad 0 = Except.error PyError.attributeError :=
  rfl

/-- Claim C2 counterexample: after `start` then `stop` the pacer is
inactive, yet an in-flight page report completing afterwards is not a no-op:
`_handle_scroll` still fires the capture callback once and, because the
report's loading flag is set, schedules the 1.5 s retry. -/
theorem stop_inflight_callback_not_noop :
    ((Pacer.init.start).stop).active = false ∧
    (handle_scroll (ScrollResult.report 600 12 true)).captureCalls = 1 ∧
    (handle_scroll (ScrollResult.report 600 12 true)).retryScheduled = true :=
  ⟨rfl, rfl, rfl⟩

/-- Claim C2 (amended): stopping an idle pacer is a no-op, `stop` is
idempotent and fully disarms the timer so no further ticks run; but an
in-flight report callback completing after `stop` always fires the capture
callback once and schedules a retry exactly when the report says the page is
loading — `_handle_scroll` never consults the active flag. -/
theorem stop_disarms_and_inflight_fires :
    (∀ p : Pacer, p.active = false → p.stop = p) ∧
    (∀ p : Pacer, (p.stop).active = false ∧ (p.stop).stop = p.stop) ∧
    (∀ p : Pacer, p.active = true →
      (p.stop).timerRunning = false ∧ (p.stop).tickRuns = 0) ∧
    (∀ r : ScrollResult, (handle_scroll r).captureCalls = 1 ∧
      (handle_scroll r).retryScheduled = r.isLoading) := by
  refine ⟨?_, ?_, ?_, ?_⟩
  · intro p hp
    unfold Pacer.stop
    rw [hp]
    simp
  · intro p
    by_cases hp : p.active = true
    · unfold Pacer.stop
      simp [hp]
    · have hf : p.active = false := Bool.not_eq_true _ |>.mp hp
      unfold Pacer.stop
      simp [hf]
  · intro p hp
    unfold Pacer.stop Pacer.tickRuns
    rw [hp]
    simp
  · intro r
    exact ⟨rfl, rfl⟩

/-- Claim C2 witness: concrete instances of the amended statement. -/
theorem stop_disarms_and_inflight_fires_witness :
    (Pacer.init).stop = Pacer.init ∧
    ((Pacer.init.start).stop).timerRunning = false ∧
    ((Pacer.init.start).stop).tickRuns = 0 ∧
    (handle_scroll ScrollResult.empty).captureCalls = 1 :=
  ⟨stop_disarms_and_inflight_fires.1 Pacer.init rfl,
   (stop_disarms_and_inflight_fires.2.2.1 Pacer.init.start rfl).1,
   (stop_disarms_and_inflight_fires.2.2.1 Pacer.init.start rfl).2,
   (stop_disarms_and_inflight_fires.2.2.2 ScrollResult.empty).1⟩

/-- Claim C3 counterexample: on `"1.23456万"` the program computes
`int(float("1.23456") * 10000) = 12345`, not
`round(1.23456 * 10000) = 12346` — the code truncates toward zero, it does
not round. -/
theorem like_count_not_rounded :
    parse_like_count (pyStr "1.23456万") = Except.ok 12345 ∧
    (12345 : ℤ) ≠ round ((123456 : ℚ) / 100000 * 10000) := by
  constructor
  · decide
  · have h2 : round ((123456 : ℚ) / 100000 * 10000) = 12346 := by
      norm_num [round_eq]
    rw [h2]
    decide

/-- Claim C3 (amended): the normalizer strips `'+'` markers, detects the
multiplier suffix (`万` ⇒ binary64 multiplication by 10000, `千` ⇒ by 1000,
none ⇒ identity) on the remaining numeral's `float` value, and whenever
that computation yields a finite float of value `q` it returns the
truncation of `q` toward zero — not its rounding; a text `float()` rejects
normalizes to 0. -/
theorem like_count_truncates :
    (∀ (ds : Str) (f : PyFloat), cleanNumeral ds → pyFloat? ds = some f →
      likeValue? (ds ++ ['万']) = some (fmulNat f 10000) ∧
      likeValue? (ds ++ ['千']) = some (fmulNat f 1000) ∧
      likeValue? ds = some f) ∧
    (∀ (t : Str) (f : PyFloat) (q : ℚ), likeValue? t = some f →
      f.val = some q → parse_like_count t = Except.ok (ratTrunc q)) ∧
    (∀ t : Str, likeValue? t = none → parse_like_count t = Except.ok 0) := by
  refine ⟨?_, ?_, ?_⟩
  · intro ds f hclean hv
    exact ⟨likeValue_wan ds f hclean hv, likeValue_qian ds f hclean hv,
      (likeValue_plain ds hclean).trans hv⟩
  · intro t f q hf hq
    exact parse_like_finite t f q hf hq
  · intro t ht
    unfold parse_like_count
    rw [ht]

/-- Claim C3 witness: `"1.2万"` scales the float of `"1.2"` by 10000 and
truncates the resulting binary64 value `12000` toward zero (the product
rounds up to exactly `12000.0 = 6597069766656000 * 2 ^ (-39)`), and a
non-numeric text normalizes to 0. -/
theorem like_count_truncates_witness :
    likeValue? (pyStr "1.2" ++ ['万']) =
      some (fmulNat (PyFloat.finite false 5404319552844595 (-52)) 10000) ∧
    parse_like_count (pyStr "1.2万") = Except.ok (ratTrunc (12000 : ℚ)) ∧
    parse_like_count (pyStr "n/a") = Except.ok 0 :=
  ⟨(like_count_truncates.1 (pyStr "1.2")
      (PyFloat.finite false 5404319552844595 (-52)) (by decide) (by decide)).1,
   like_count_truncates.2.1 (pyStr "1.2万")
      (PyFloat.finite false 6597069766656000 (-39)) 12000 (by decide)
      (by norm_num [PyFloat.val]),
   like_count_truncates.2.2 (pyStr "n/a") (by decide)⟩

/-- Claim C4 counterexample: a visible fragment with a canonical link whose
author anchor exists but has no `.name` descendant makes
`_extract_note_info` raise `AttributeError` (`select_one('.name')` returns
`None` and `.get_text` is called on it) — extraction does not degrade this
missing sub-element to the empty string. -/
theorem extract_raises_on_author_without_name :
    extract_note_info fragNoName base_url (pyStr "deadbeef")
      (pyStr "https://www.xiaohongshu.com/explore/xyz789?xsec_token=Z") 0 =
      Except.error PyError.attributeError :=
  rfl

/-- Claim C4 (amended): extraction raises exactly when the author anchor
lacks a `.name` descendant, the like wrapper lacks a `.count` descendant,
the like text's `int(float(...))` conversion raises an uncaught
`OverflowError` (value overflowing to infinity, e.g. `"inf"`), or the cover
image lacks a `src` attribute; on every other fragment the record is
produced with missing sub-elements degraded to the empty string (0 for
likes).  A raising fragment is caught by the per-fragment handler and never
aborts extraction of sibling fragments in the same pass. -/
theorem extract_defaults_and_sibling_isolation :
    (∀ (item : Fragment) (b nid u : Str) (now : Int),
      extractRaises item = false →
      ∃ nd, extract_note_info item b nid u now = Except.ok nd ∧
        (item.titleText = none → nd.title = []) ∧
        (item.author = none → nd.author = [] ∧ nd.author_link = []) ∧
        (item.coverImg = none → nd.cover = []) ∧
        (item.likeCount = none → nd.likes = 0)) ∧
    (∀ (item : Fragment) (b nid u : Str) (now : Int),
      extractRaises item = true →
      ∃ e, extract_note_info item b nid u now = Except.error e) ∧
    (∀ (hash : Str → Str) (seen : Finset Str) (now : Int)
      (l1 l2 : List Fragment) (item : Fragment),
      extractRaises item = true →
      parse_html hash seen (Html.ok (l1 ++ item :: l2)) now =
        parse_html hash seen (Html.ok (l1 ++ l2)) now) := by
  refine ⟨?_, ?_, ?_⟩
  · intro item b nid u now h
    obtain ⟨nd, h1, _, h3, h4, h5, h6⟩ := extract_ok_of_not_raises item b nid u now h
    exact ⟨nd, h1, h3, h4, h5, h6⟩
  · intro item b nid u now h
    exact extract_error_of_raises item b nid u now h
  · intro hash seen now l1 l2 item h
    show Except.ok
        (let res := List.foldl (process_item hash now) (seen, []) (l1 ++ item :: l2)
         (res.1, res.2, if res.2.isEmpty = true then [] else [res.2])) =
      Except.ok
        (let res := List.foldl (process_item hash now) (seen, []) (l1 ++ l2)
         (res.1, res.2, if res.2.isEmpty = true then [] else [res.2]))
    rw [foldl_drop_raising hash now l1 l2 item (seen, []) h]

/-- Claim C4 witness: the bare fragment extracts with defaulted fields, the
fragment whose like text is `"inf"` raises, and dropping a raising fragment
from a pass does not change the pass. -/
theorem extract_defaults_and_sibling_isolation_witness :
    (∃ nd, extract_note_info fragBare base_url (pyStr "i") (pyStr "u") 0 =
        Except.ok nd ∧
      (fragBare.titleText = none → nd.title = []) ∧
      (fragBare.author = none → nd.author = [] ∧ nd.author_link = []) ∧
      (fragBare.coverImg = none → nd.cover = []) ∧
      (fragBare.likeCount = none → nd.likes = 0)) ∧
    (∃ e, extract_note_info fragInfLikes base_url (pyStr "i") (pyStr "u") 0 =
        Except.error e) ∧
    parse_html idHash ∅ (Html.ok ([] ++ fragNoName :: [])) 0 =
      parse_html idHash ∅ (Html.ok ([] ++ [])) 0 :=
  ⟨extract_defaults_and_sibling_isolation.1 fragBare base_url
      (pyStr "i") (pyStr "u") 0 (by decide),
   extract_defaults_and_sibling_isolation.2.1 fragInfLikes base_url
      (pyStr "i") (pyStr "u") 0 (by decide),
   extract_defaults_and_sibling_isolation.2.2 idHash ∅ 0 [] [] fragNoName
      (by decide)⟩

/-- Claim C5 counterexample: the like-count text `"-5"` parses successfully
to the float `-5.0`, so the produced record carries `likes = -5`, a negative
value — the `NoteItem` model with its `ge=0` constraint is never
instantiated by the code. -/
theorem produced_record_negative_likes :
    (extract_note_info fragNegLikes base_url (pyStr "deadbeef")
      (pyStr "https://www.xiaohongshu.com/explore/neg000?xsec_token=W") 7
      ).toOption.map NoteData.likes = some (-5) ∧
    ¬ (0 : Int) ≤ -5 :=
  ⟨rfl, by decide⟩

/-- Claim C5 (amended): a like text `float()` rejects normalizes to exactly
0, as does one whose value is nan (`int(nan)` raises `ValueError`, which is
caught); a like text whose pipeline yields a finite non-negative float
value normalizes to a non-negative value; but a negative numeral (such as
`"-5"`) produces a record with negative likes, and a value overflowing to
infinity makes `int()` raise an uncaught `OverflowError` so no record is
produced at all. -/
theorem likes_zero_on_failure_nonneg_on_nonneg :
    (∀ t : Str, likeValue? t = none → parse_like_count t = Except.ok 0) ∧
    (∀ t : Str, likeValue? t = some PyFloat.nan →
      parse_like_count t = Except.ok 0) ∧
    (∀ (t : Str) (f : PyFloat) (q : ℚ), likeValue? t = some f →
      f.val = some q → 0 ≤ q →
      parse_like_count t = Except.ok (ratTrunc q) ∧ 0 ≤ ratTrunc q) ∧
    (∀ (t : Str) (b : Bool), likeValue? t = some (PyFloat.inf b) →
      parse_like_count t = Except.error PyError.overflowError) := by
  refine ⟨?_, ?_, ?_, ?_⟩
  · intro t ht
    unfold parse_like_count
    rw [ht]
  · intro t ht
    exact parse_like_nan t ht
  · intro t f q hf hq h0
    refine ⟨parse_like_finite t f q hf hq, ?_⟩
    rw [ratTrunc, if_pos h0]
    exact Int.floor_nonneg.mpr h0
  · intro t b ht
    exact parse_like_inf t b ht

/-- Claim C5 witness: a failing parse yields 0, `"3千"` yields the
non-negative value `trunc(3000)`, and `"inf"` raises `OverflowError`. -/
theorem likes_zero_on_failure_nonneg_on_nonneg_witness :
    parse_like_count (pyStr "n.a") = Except.ok 0 ∧
    parse_like_count (pyStr "3千") = Except.ok (ratTrunc (3000 : ℚ)) ∧
    parse_like_count (pyStr "inf") = Except.error PyError.overflowError :=
  ⟨likes_zero_on_failure_nonneg_on_nonneg.1 (pyStr "n.a") (by decide),
   (likes_zero_on_failure_nonneg_on_nonneg.2.2.1 (pyStr "3千")
      (PyFloat.finite false 6597069766656000 (-41)) 3000 (by decide)
      (by norm_num [PyFloat.val]) (by norm_num)).1,
   likes_zero_on_failure_nonneg_on_nonneg.2.2.2 (pyStr "inf") false
      (by decide)⟩

/-- Claim C6 (confirmed): the derived short id is invariant under
query-string variation — two references sharing the query-free part `p` and
differing only after the `'?'` resolve to full URLs with the same
query-stripped final path segment, hence the same hash, for every hash
function. -/
theorem note_id_query_invariant :
    ∀ (hash : Str → Str) (p q1 q2 : Str), '?' ∉ p →
      note_id_of hash (urljoin base_url (p ++ '?' :: q1)) =
        note_id_of hash (urljoin base_url (p ++ '?' :: q2)) := by
  intro hash p q1 q2 h
  unfold note_id_of
  rw [note_core_query p q1 h, note_core_query p q2 h]

/-- Claim C6 witness: the two end-to-end example links of the spec differing
only in `xsec_token` derive the same id. -/
theorem note_id_query_invariant_witness :
    note_id_of idHash
        (urljoin base_url (pyStr "/explore/abc123" ++ '?' :: pyStr "xsec_token=X")) =
      note_id_of idHash
        (urljoin base_url (pyStr "/explore/abc123" ++ '?' :: pyStr "xsec_token=Y")) :=
  note_id_query_invariant idHash (pyStr "/explore/abc123")
    (pyStr "xsec_token=X") (pyStr "xsec_token=Y") (by decide)

/-- Claim C7 (confirmed): feeding a fragment to a capture pass twice with
the same dedup index is idempotent — when the first pass yields exactly the
record `nd`, the pass registers `nd.id` in the returned index, and a second
pass over the same fragment against that index yields an empty batch, emits
nothing, and leaves the index unchanged. -/
theorem extractor_idempotent_on_dedup_index :
    ∀ (hash : Str → Str) (seen : Finset Str) (item : Fragment)
      (now now2 : Int) (seen2 : Finset Str) (evs : List (List NoteData))
      (nd : NoteData),
      parse_html hash seen (Html.ok [item]) now =
        Except.ok (seen2, [nd], evs) →
      nd.id ∈ seen2 ∧
      parse_html hash seen2 (Html.ok [item]) now2 =
        Except.ok (seen2, [], []) := by
  intro hash seen item now now2 seen2 evs nd hrun
  unfold parse_html at hrun
  simp only [List.foldl_cons, List.foldl_nil] at hrun
  injection hrun with h
  have hA : (process_item hash now (seen, []) item).1 = seen2 :=
    congrArg (fun x => x.1) h
  have hB : (process_item hash now (seen, []) item).2 = [nd] :=
    congrArg (fun x => x.2.1) h
  by_cases hh : hiddenItem item
  · rw [process_item_hidden hash now (seen, []) item hh] at hB
    simp at hB
  · rcases hhref : item.noteLinkHref with _ | href
    · rw [process_item_nolink hash now (seen, []) item
        (Bool.not_eq_true _ |>.mp hh) hhref] at hB
      simp at hB
    · by_cases hmem :
        note_id_of hash (urljoin base_url href) ∈ (seen, ([] : List NoteData)).1
      · rw [process_item_dup hash now (seen, []) item href
          (Bool.not_eq_true _ |>.mp hh) hhref hmem] at hB
        simp at hB
      · cases hex : extract_note_info item base_url
          (note_id_of hash (urljoin base_url href)) (urljoin base_url href)
          now with
        | error e =>
            rw [process_item_err hash now (seen, []) item href e
              (Bool.not_eq_true _ |>.mp hh) hhref hmem hex] at hB
            simp at hB
        | ok nd2 =>
            rw [process_item_new hash now (seen, []) item href nd2
              (Bool.not_eq_true _ |>.mp hh) hhref hmem hex] at hA hB
            have hnd : nd2 = nd := by simpa using hB
            have hid : nd.id = note_id_of hash (urljoin base_url href) := by
              rw [← hnd]
              exact extract_ok_id item base_url _ _ now nd2 hex
            constructor
            · rw [← hA, hid]
              exact Finset.mem_insert_self _ _
            · unfold parse_html
              simp only [List.foldl_cons, List.foldl_nil]
              rw [process_item_dup hash now2 (seen2, []) item href
                (Bool.not_eq_true _ |>.mp hh) hhref
                (by rw [← hA]; exact Finset.mem_insert_self _ _)]
              rfl

/-- Claim C7 witness: the good fragment yields its record on the first pass
from the empty index and nothing on a second pass. -/
theorem extractor_idempotent_witness :
    fragGoodNote.id ∈ ({pyStr "abc123"} : Finset Str) ∧
    parse_html idHash {pyStr "abc123"} (Html.ok [fragGood]) 9 =
      Except.ok ({pyStr "abc123"}, [], []) :=
  extractor_idempotent_on_dedup_index idHash ∅ fragGood 5 9
    {pyStr "abc123"} [[fragGoodNote]] fragGoodNote rfl

/-- Claim C8 (confirmed): a capture pass hands an event to the sink iff the
batch of newly extracted records is nonempty, the whole batch travels as a
single event, and a pass in which every fragment's derived id is already in
the dedup index emits nothing. -/
theorem batch_emitted_iff_nonempty :
    ∀ (hash : Str → Str) (seen : Finset Str) (frags : List Fragment)
      (now : Int) (seen2 : Finset Str) (batch : List NoteData)
      (evs : List (List NoteData)),
      parse_html hash seen (Html.ok frags) now =
        Except.ok (seen2, batch, evs) →
      (evs = [] ↔ batch = []) ∧
      (batch ≠ [] → evs = [batch]) ∧
      ((∀ item ∈ frags, ∃ nid, deriveId? hash item = some nid ∧ nid ∈ seen) →
        batch = [] ∧ evs = []) := by
  intro hash seen frags now seen2 batch evs h
  unfold parse_html at h
  injection h with h
  have hB : (List.foldl (process_item hash now) (seen, []) frags).2 = batch :=
    congrArg (fun x => x.2.1) h
  have hE : (if (List.foldl (process_item hash now) (seen, []) frags).2.isEmpty
      then ([] : List (List NoteData))
      else [(List.foldl (process_item hash now) (seen, []) frags).2]) = evs :=
    congrArg (fun x => x.2.2) h
  refine ⟨?_, ?_, ?_⟩
  · rw [← hB, ← hE]
    by_cases hres : (List.foldl (process_item hash now) (seen, []) frags).2 = []
    · simp [hres]
    · simp [List.isEmpty_eq_true, hres]
  · intro hne
    rw [← hB] at hne
    rw [← hE, ← hB]
    simp [List.isEmpty_eq_true, hne]
  · intro hdup
    have hfold : List.foldl (process_item hash now) (seen, []) frags =
        (seen, []) := foldl_all_dup hash now frags seen [] hdup
    rw [← hB, ← hE, hfold]
    simp

/-- Claim C8 witness: an all-duplicate pass yields an empty batch and emits
nothing, and a productive pass delivers its whole batch as one event. -/
theorem batch_emitted_iff_nonempty_witness :
    (([] : List NoteData) = [] ∧ ([] : List (List NoteData)) = []) ∧
    ([[fragGoodNote]] : List (List NoteData)) = [[fragGoodNote]] :=
  ⟨(batch_emitted_iff_nonempty idHash {pyStr "abc123"} [fragGood] 9
      {pyStr "abc123"} [] [] rfl).2.2
    (fun item hmem =>
      ⟨pyStr "abc123", by rw [List.mem_singleton.mp hmem]; decide, by decide⟩),
   (batch_emitted_iff_nonempty idHash ∅ [fragGood] 5 {pyStr "abc123"}
      [fragGoodNote] [[fragGoodNote]] rfl).2.1 (by decide)⟩

/-- Claim C9 (confirmed, implicit): `start` on an already-active pacer is a
no-op, but `stop` never disconnects the `timeout` handler, so after `k`
idle-to-active transitions the handler is connected `k` times and each
3-second tick runs `_scroll_step` `k` times, each of whose page reports
fires the capture callback once. -/
theorem start_noop_and_connections_accumulate :
    (∀ p : Pacer, p.active = true → p.start = p) ∧
    (∀ k : Nat, (kTransitions k).connections = k ∧
      (kTransitions k).tickRuns = k ∧ (kTransitions k).intervalMs = 3000) ∧
    (∀ r : ScrollResult, (handle_scroll r).captureCalls = 1) := by
  refine ⟨?_, ?_, ?_⟩
  · intro p hp
    unfold Pacer.start
    rw [hp]
    simp
  · intro k
    cases k with
    | zero => exact ⟨rfl, rfl, rfl⟩
    | succ k =>
        rw [kTransitions_succ k]
        exact ⟨rfl, rfl, rfl⟩
  · intro r
    rfl

/-- Claim C9 witness: a second `start` is a no-op, and three idle-to-active
transitions leave three accumulated connections, so one tick runs the scroll
step three times. -/
theorem start_noop_and_connections_accumulate_witness :
    (Pacer.init.start).start = Pacer.init.start ∧
    (kTransitions 3).connections = 3 ∧ (kTransitions 3).tickRuns = 3 :=
  ⟨start_noop_and_connections_accumulate.1 Pacer.init.start rfl,
   (start_noop_and_connections_accumulate.2.1 3).1,
   (start_noop_and_connections_accumulate.2.1 3).2.1⟩

/-- Claim C10 (confirmed, implicit): the dedup index grows monotonically —
a capture pass only ever inserts into `collected_notes`, so the returned
index contains the input index; and a fragment whose derived id is already
registered is completely suppressed by the loop. -/
theorem collected_notes_monotone :
    (∀ (hash : Str → Str) (seen : Finset Str) (frags : List Fragment)
      (now : Int) (seen2 : Finset Str) (batch : List NoteData)
      (evs : List (List NoteData)),
      parse_html hash seen (Html.ok frags) now =
        Except.ok (seen2, batch, evs) →
      seen ⊆ seen2) ∧
    (∀ (hash : Str → Str) (now : Int) (acc : Finset Str × List NoteData)
      (item : Fragment) (nid : Str),
      deriveId? hash item = some nid → nid ∈ acc.1 →
      process_item hash now acc item = acc) := by
  constructor
  · intro hash seen frags now seen2 batch evs h
    unfold parse_html at h
    injection h with h
    have hA : (List.foldl (process_item hash now) (seen, []) frags).1 = seen2 :=
      congrArg (fun x => x.1) h
    rw [← hA]
    exact foldl_subset hash now frags (seen, [])
  · intro hash now acc item nid h1 h2
    exact process_item_skip hash now acc item nid h1 h2

/-- Claim C10 witness: a concrete pass only grows the index, and a
registered id suppresses its fragment. -/
theorem collected_notes_monotone_witness :
    (∅ : Finset Str) ⊆ ({pyStr "abc123"} : Finset Str) ∧
    process_item idHash 9 ({pyStr "abc123"}, []) fragGood =
      ({pyStr "abc123"}, []) :=
  ⟨collected_notes_monotone.1 idHash ∅ [fragGood] 5 {pyStr "abc123"}
      [fragGoodNote] [[fragGoodNote]] rfl,
   collected_notes_monotone.2 idHash 9 ({pyStr "abc123"}, []) fragGood
      (pyStr "abc123") (by decide) (by decide)⟩
